import Mathlib

/-!
Verification of the transaction-serialization core of the Concordium node SDK
(`src/serialization.ts` and the serialization helpers).

The TypeScript sources are shallowly embedded here:
* JS `Buffer` values become `List Nat` of byte values.
* Functions that may `throw` become `Except EncError`-valued functions; each
  `throw` site gets its own `EncError` constructor, so "the error is propagated
  unchanged" is expressible as equality of `Except` values.
* JS `bigint` arguments become `Int`; JS `number` arguments of the fixed-width
  encoders become `ℚ` so that the `Number.isInteger` check is expressible
  (`NaN`/`Infinity` inputs are outside this model).
* A JS object with array-index keys (canonical decimal strings of small
  non-negative integers, the only keys this code uses) becomes an association
  list `List (Nat × T)` recording insertion order; `Object.keys` on such an
  object enumerates the distinct keys in ascending numeric order (ECMAScript
  `OrdinaryOwnPropertyKeys`), independent of insertion order, which `objectKeys`
  embeds by sorting the deduplicated key list.  `Number` applied to the
  canonical decimal string of `n` is `n`, so keys are carried as `Nat`.
-/

namespace ConcordiumSdk

/-- A JS `Buffer` / `Uint8Array`: a list of byte values. -/
abbrev Bytes := List Nat

/-- The distinct `throw` sites of the serialization core.  `rangeError w` is the
out-of-range error of the width-`w` integer encoder (including the 16-bit range
check of `writeUInt16BE`); `emptySignatureSet` is the guard of
`serializeAccountTransactionSignature`. -/
inductive EncError where
  | rangeError (width : Nat)
  | emptySignatureSet
deriving DecidableEq

deriving instance DecidableEq for Except

/-- Big-endian fixed-width byte serialization of a natural number, the model of
`DataView.setUint*` / `setBigUint64` with little-endian flag `false`. -/
def beBytes (numBytes value : Nat) : Bytes :=
  (List.range numBytes).map fun i => value / 256 ^ (numBytes - 1 - i) % 256

/-- `encodeWord64` (serializationHelpers.ts): guard
`value > 9223372036854775807n || value < 0n`, then 8 big-endian bytes. -/
def encodeWord64 (value : Int) : Except EncError Bytes :=
  if value > 9223372036854775807 ∨ value < 0 then .error (.rangeError 64)
  else .ok (beBytes 8 value.toNat)

/-- `encodeWord32` (serializationHelpers.ts): guard
`value > 4294967295 || value < 0 || !Number.isInteger(value)`, then 4 bytes. -/
def encodeWord32 (value : ℚ) : Except EncError Bytes :=
  if value > 4294967295 ∨ value < 0 ∨ value.den ≠ 1 then .error (.rangeError 32)
  else .ok (beBytes 4 value.num.toNat)

/-- `encodeWord16` (serializationHelpers.ts). -/
def encodeWord16 (value : ℚ) : Except EncError Bytes :=
  if value > 65535 ∨ value < 0 ∨ value.den ≠ 1 then .error (.rangeError 16)
  else .ok (beBytes 2 value.num.toNat)

/-- `encodeWord8` (serializationHelpers.ts). -/
def encodeWord8 (value : ℚ) : Except EncError Bytes :=
  if value > 255 ∨ value < 0 ∨ value.den ≠ 1 then .error (.rangeError 8)
  else .ok (beBytes 1 value.num.toNat)

/-- `encodeWord8` applied to a `number` that is a `Nat` (a key count or a key
converted by `Number`). -/
def encodeWord8OfNat (n : Nat) : Except EncError Bytes :=
  encodeWord8 (n : ℚ)

/-- `encodeWord8FromString` (serializationHelpers.ts): `encodeWord8(Number(value))`.
Keys are the canonical decimal strings of their numeric value, on which
`Number` is the identity, so the embedding receives the `Nat` directly. -/
def encodeWord8FromString (value : Nat) : Except EncError Bytes :=
  encodeWord8 (value : ℚ)

/-- A JS object with array-index keys, as an insertion-ordered association list. -/
abbrev JsMap (T : Type) := List (Nat × T)

/-- `Object.keys` on an object whose keys are array indices: the distinct keys
in ascending numeric order (ECMAScript `OrdinaryOwnPropertyKeys`), independent
of insertion order. -/
def objectKeys {T : Type} (m : JsMap T) : List Nat :=
  List.insertionSort (· ≤ ·) (m.map Prod.fst).dedup

/-- `map[key]` for the embedded JS object. -/
def jsGet {T : Type} (m : JsMap T) (k : Nat) : Option T :=
  (m.find? fun p => p.1 == k).map Prod.snd

/-- The `keys.forEach` loop body of `serializeMap` (serializationHelpers.ts):
encode each key followed by its value, aborting at the first thrown error.
The `none` branch of the lookup is unreachable because the keys are exactly
`objectKeys map`. -/
def serializeMapEntries {T : Type} (map : JsMap T)
    (encodeKey : Nat → Except EncError Bytes)
    (encodeValue : T → Except EncError Bytes) : List Nat → Except EncError Bytes
  | [] => .ok []
  | k :: ks =>
    match encodeKey k with
    | .error e => .error e
    | .ok kb =>
      match (match jsGet map k with | some v => encodeValue v | none => .ok []) with
      | .error e => .error e
      | .ok vb =>
        match serializeMapEntries map encodeKey encodeValue ks with
        | .error e => .error e
        | .ok rest => .ok (kb ++ vb ++ rest)

/-- `serializeMap` (serializationHelpers.ts): the encoded key count followed by
each key's encoding and its value's encoding, keys enumerated by `Object.keys`. -/
def serializeMap {T : Type} (map : JsMap T)
    (encodeSize : Nat → Except EncError Bytes)
    (encodeKey : Nat → Except EncError Bytes)
    (encodeValue : T → Except EncError Bytes) : Except EncError Bytes :=
  match encodeSize (objectKeys map).length with
  | .error e => .error e
  | .ok sz =>
    match serializeMapEntries map encodeKey encodeValue (objectKeys map) with
    | .error e => .error e
    | .ok rest => .ok (sz ++ rest)

/-- The numeric value of a hexadecimal digit character (`0-9`, `a-f`, `A-F`),
`none` otherwise. -/
def hexVal (c : Char) : Option Nat :=
  if '0' ≤ c ∧ c ≤ '9' then some (c.toNat - 48)
  else if 'a' ≤ c ∧ c ≤ 'f' then some (c.toNat - 87)
  else if 'A' ≤ c ∧ c ≤ 'F' then some (c.toNat - 55)
  else none

/-- JS `StrWhiteSpaceChar` (the characters `parseInt` strips), restricted to the
code points that can occur here. -/
def isJsSpace (c : Char) : Bool :=
  c == ' ' || c == '\t' || c == '\n' || c == '\r' ||
  c == Char.ofNat 11 || c == Char.ofNat 12 || c == Char.ofNat 0xa0 ||
  c == Char.ofNat 0x2028 || c == Char.ofNat 0x2029 || c == Char.ofNat 0xfeff

/-- `parseInt(s, 16)` on a two-character string `⟨c1, c2⟩`, as called by the npm
`buffer` package's `hexWrite` (dependency `buffer@6`, imported as `'buffer/'`):
strip leading whitespace, read an optional sign, strip a `0x`/`0X` prefix, then
read the longest prefix of hex digits; `none` when no digit is read (`NaN`). -/
def parseIntHex2 (c1 c2 : Char) : Option Int :=
  if c1 = '0' ∧ (c2 = 'x' ∨ c2 = 'X') then none
  else
    match hexVal c1 with
    | some v1 =>
      match hexVal c2 with
      | some v2 => some (16 * v1 + v2 : Nat)
      | none => some (v1 : Nat)
    | none =>
      if c1 = '+' ∨ isJsSpace c1 then (hexVal c2).map fun v => (v : Int)
      else if c1 = '-' then (hexVal c2).map fun v => -(v : Int)
      else none

/-- The loop of `hexWrite` in the npm `buffer` package: walk the string two
characters at a time (`⌊strLen/2⌋` iterations), `parseInt` each chunk, stop at
the first `NaN`, and store each parsed value into a `Uint8Array` slot
(which wraps modulo 256). -/
def hexPairsDecode : List Char → Bytes
  | c1 :: c2 :: rest =>
    match parseIntHex2 c1 c2 with
    | none => []
    | some v => (v % 256).toNat :: hexPairsDecode rest
  | _ => []

/-- `Buffer.from(s, 'hex')` of the npm `buffer` package: the bytes written by
`hexWrite`, truncated to the count actually written. -/
def jsBufferFromHex (s : String) : Bytes :=
  hexPairsDecode s.data

/-- An inner credential-signature map: key index (`Nat`, see `JsMap`) to the
signature as a hex string. -/
abbrev CredentialSignature := JsMap String

/-- The two-level signature structure: credential index to `CredentialSignature`. -/
abbrev AccountTransactionSignature := JsMap CredentialSignature

/-- `putSignature` (serialization.ts): hex-decode the signature string, then a
2-byte big-endian length prefix (`writeUInt16BE`, which range-checks) followed
by the decoded bytes. -/
def putSignature (signature : String) : Except EncError Bytes :=
  let signatureBytes := jsBufferFromHex signature
  if signatureBytes.length > 65535 then .error (.rangeError 16)
  else .ok (beBytes 2 signatureBytes.length ++ signatureBytes)

/-- `putCredentialSignatures` (serialization.ts). -/
def putCredentialSignatures (credSig : CredentialSignature) : Except EncError Bytes :=
  serializeMap credSig encodeWord8OfNat encodeWord8FromString putSignature

/-- `serializeAccountTransactionSignature` (serialization.ts): guard
`Object.keys(signatures).length === 0`, then the nested map encoding. -/
def serializeAccountTransactionSignature (signatures : AccountTransactionSignature) :
    Except EncError Bytes :=
  if (objectKeys signatures).length = 0 then .error .emptySignatureSet
  else serializeMap signatures encodeWord8OfNat encodeWord8FromString putCredentialSignatures

/-- `AccountTransactionHeader` (types.ts, not under src/).  Modelled from the
spec: sender address as opaque fixed-width bytes (`sender.decodedAddress`),
nonce and expiry (`expiry.expiryEpochSeconds`) as JS `bigint`.  The payload
size is not a field: it is always derived by the caller. -/
structure AccountTransactionHeader where
  sender : Bytes
  nonce : Int
  expiry : Int

/-- An account transaction: header, type tag, and a payload of the opaque type
`P` consumed by the injected payload handler. -/
structure AccountTransaction (P : Type) where
  type : Nat
  header : AccountTransactionHeader
  payload : P

/-- Modelled from the spec: the payload-handler collaborator
(`getAccountTransactionHandler`, accountTransactions.ts, not under src/) —
for a type tag it exposes `serialize(payload) -> bytes` and
`baseEnergyCost(payload)`. -/
structure TransactionHandler (P : Type) where
  serialize : P → Bytes
  getBaseEnergyCost : P → Int

/-- Modelled from the spec: the energy-cost collaborator (`calculateEnergyCost`,
energyCost.ts, not under src/) — a deterministic pricing function
`cost(signatureCount, totalByteSize, baseCost)`; its coefficients are outside
this core. -/
abbrev EnergyCostModel := Nat → Nat → Int → Int

/-- Modelled from the spec: `countSignatures` (util.ts, not under src/) — the
number of signatures in the set, summed over the credential entries. -/
def countSignatures (signatures : AccountTransactionSignature) : Nat :=
  (signatures.map fun p => (objectKeys p.2).length).sum

/-- Modelled from the spec: `BlockItemKind.AccountTransactionKind` (types.ts,
not under src/) — the fixed tag byte of an account transaction; the spec's
canonical example gives the kind byte `01`. -/
def accountTransactionKind : Nat := 1

/-- `serializeAccountTransactionType` (serialization.ts):
`Buffer.from(Uint8Array.of(type))`, a single byte (`Uint8Array.of` wraps
modulo 256). -/
def serializeAccountTransactionType (type : Nat) : Bytes :=
  [type % 256]

/-- `serializeAccountTransactionHeader` (serialization.ts): sender bytes, nonce,
energy, payload size, expiry, in that order, with the nonce/energy/payload
size/expiry encodings evaluated in source order. -/
def serializeAccountTransactionHeader (header : AccountTransactionHeader)
    (payloadSize : ℚ) (energyAmount : Int) : Except EncError Bytes :=
  match encodeWord64 header.nonce with
  | .error e => .error e
  | .ok serializedNonce =>
    match encodeWord64 energyAmount with
    | .error e => .error e
    | .ok serializedEnergyAmount =>
      match encodeWord32 payloadSize with
      | .error e => .error e
      | .ok serializedPayloadSize =>
        match encodeWord64 header.expiry with
        | .error e => .error e
        | .ok serializedExpiry =>
          .ok (header.sender ++ serializedNonce ++ serializedEnergyAmount ++
               serializedPayloadSize ++ serializedExpiry)

/-- `serializeAccountTransaction` (serialization.ts): block-item-kind byte,
signature block, header (with payload size `serializedPayload.length + 1` and
the computed energy cost), type byte, payload. -/
def serializeAccountTransaction {P : Type} (cost : EnergyCostModel)
    (handler : TransactionHandler P) (accountTransaction : AccountTransaction P)
    (signatures : AccountTransactionSignature) : Except EncError Bytes :=
  match encodeWord8OfNat accountTransactionKind with
  | .error e => .error e
  | .ok serializedBlockItemKind =>
    match serializeAccountTransactionSignature signatures with
    | .error e => .error e
    | .ok serializedAccountTransactionSignatures =>
      let serializedType := serializeAccountTransactionType accountTransaction.type
      let serializedPayload := handler.serialize accountTransaction.payload
      let energyCost := cost (countSignatures signatures) (serializedPayload.length + 1)
        (handler.getBaseEnergyCost accountTransaction.payload)
      match serializeAccountTransactionHeader accountTransaction.header
          ((serializedPayload.length + 1 : Nat) : ℚ) energyCost with
      | .error e => .error e
      | .ok serializedHeader =>
        .ok (serializedBlockItemKind ++ serializedAccountTransactionSignatures ++
             serializedHeader ++ serializedType ++ serializedPayload)

/-- The lowercase-hex rendering of a byte list, the model of
`Buffer.toString('hex')`. -/
def bytesToHex (bs : Bytes) : String :=
  String.mk (bs.flatMap fun b => [
    if b / 16 % 16 < 10 then Char.ofNat (48 + b / 16 % 16) else Char.ofNat (87 + b / 16 % 16),
    if b % 16 < 10 then Char.ofNat (48 + b % 16) else Char.ofNat (87 + b % 16)])

/-- `getAccountTransactionHash` (serialization.ts): the hex string of the hash
of the full serialization.  The hash primitive (`sha256`, hash.ts, not under
src/) is modelled from the spec as an injected digest function over the
concatenation of the buffer sequence. -/
def getAccountTransactionHash {P : Type} (hash : Bytes → Bytes)
    (cost : EnergyCostModel) (handler : TransactionHandler P)
    (accountTransaction : AccountTransaction P)
    (signatures : AccountTransactionSignature) : Except EncError String :=
  match serializeAccountTransaction cost handler accountTransaction signatures with
  | .error e => .error e
  | .ok serializedAccountTransaction => .ok (bytesToHex (hash serializedAccountTransaction))

/-- `getAccountTransactionSignDigest` (serialization.ts): the hash of the
serialized header, type byte and payload.  `signatureCount` defaults to `1n`
in the source; the embedding passes it explicitly. -/
def getAccountTransactionSignDigest {P : Type} (hash : Bytes → Bytes)
    (cost : EnergyCostModel) (handler : TransactionHandler P)
    (accountTransaction : AccountTransaction P) (signatureCount : Nat) :
    Except EncError Bytes :=
  let serializedPayload := handler.serialize accountTransaction.payload
  let energyCost := cost signatureCount (serializedPayload.length + 1)
    (handler.getBaseEnergyCost accountTransaction.payload)
  match serializeAccountTransactionHeader accountTransaction.header
      ((serializedPayload.length + 1 : Nat) : ℚ) energyCost with
  | .error e => .error e
  | .ok serializedHeader =>
    .ok (hash (serializedHeader ++ serializeAccountTransactionType accountTransaction.type ++
               serializedPayload))

/-- `serializeAccountTransactionForSubmission` (serialization.ts): the version
byte `encodeWord8(0)` prefixed to the full serialization. -/
def serializeAccountTransactionForSubmission {P : Type} (cost : EnergyCostModel)
    (handler : TransactionHandler P) (accountTransaction : AccountTransaction P)
    (signatures : AccountTransactionSignature) : Except EncError Bytes :=
  match serializeAccountTransaction cost handler accountTransaction signatures with
  | .error e => .error e
  | .ok serializedAccountTransaction =>
    match encodeWord8OfNat 0 with
    | .error e => .error e
    | .ok serializedVersion => .ok (serializedVersion ++ serializedAccountTransaction)

/-- The payload handler instance used by the concrete examples: the payload is
already a byte list, serialized as itself, with base energy cost 1. -/
def handlerId : TransactionHandler Bytes :=
  { serialize := id, getBaseEnergyCost := fun _ => 1 }

/-- A concrete energy-cost model instance for the witnesses. -/
def cost0 : EnergyCostModel := fun _ _ _ => 7

/-- A concrete stand-in digest function for the witnesses: a fixed-length
(32-byte) output determined by the input. -/
def hashLen32 (bs : Bytes) : Bytes :=
  List.replicate 32 (bs.length % 256)

/-- The spec's canonical end-to-end input: sender 32 zero bytes, nonce 1,
expiry 100, type tag 3, payload `0x0A0B`. -/
def tx6 : AccountTransaction Bytes :=
  { type := 3
    header := { sender := List.replicate 32 0, nonce := 1, expiry := 100 }
    payload := [10, 11] }

/-- The spec's canonical signature set `{0: {0: "aa"}}`. -/
def sigs6 : AccountTransactionSignature :=
  [(0, [(0, "aa")])]

/-- The bytes `serializeAccountTransaction` produces on the canonical example
under the `cost0` model (energy field `7`). -/
def assembled6 : Bytes :=
  [1] ++ [1, 0, 1, 0, 0, 1, 170] ++
    (List.replicate 32 0 ++ [0, 0, 0, 0, 0, 0, 0, 1] ++ [0, 0, 0, 0, 0, 0, 0, 7] ++
     [0, 0, 0, 3] ++ [0, 0, 0, 0, 0, 0, 0, 100]) ++ [3] ++ [10, 11]

/- ------------------------------------------------------------------ -/
/- Helper lemmas about the fixed-width encoders.                       -/
/- ------------------------------------------------------------------ -/

theorem encodeWord64_ok {v : Int} (h0 : 0 ≤ v) (h1 : v ≤ 9223372036854775807) :
    encodeWord64 v = .ok (beBytes 8 v.toNat) := by
  have hc : ¬(v > 9223372036854775807 ∨ v < 0) := by rintro (h | h) <;> omega
  simp only [encodeWord64, if_neg hc]

theorem encodeWord32_natCast_ok {n : Nat} (h : n ≤ 4294967295) :
    encodeWord32 (n : ℚ) = .ok (beBytes 4 n) := by
  have hc : ¬((n : ℚ) > 4294967295 ∨ (n : ℚ) < 0 ∨ ((n : ℚ)).den ≠ 1) := by
    push_neg
    refine ⟨by exact_mod_cast h, by positivity, Rat.den_natCast n⟩
  simp only [encodeWord32, if_neg hc, Rat.num_natCast, Int.toNat_natCast]

theorem encodeWord8OfNat_ok {n : Nat} (h : n ≤ 255) :
    encodeWord8OfNat n = .ok [n] := by
  have hc : ¬((n : ℚ) > 255 ∨ (n : ℚ) < 0 ∨ ((n : ℚ)).den ≠ 1) := by
    push_neg
    refine ⟨by exact_mod_cast h, by positivity, Rat.den_natCast n⟩
  simp only [encodeWord8OfNat, encodeWord8, if_neg hc, Rat.num_natCast, Int.toNat_natCast]
  simp [beBytes, Nat.mod_eq_of_lt (by omega : n < 256)]

theorem serializeAccountTransactionHeader_ok {header : AccountTransactionHeader}
    {ps : Nat} {energy : Int}
    (hn0 : 0 ≤ header.nonce) (hn1 : header.nonce ≤ 9223372036854775807)
    (he0 : 0 ≤ energy) (he1 : energy ≤ 9223372036854775807)
    (hx0 : 0 ≤ header.expiry) (hx1 : header.expiry ≤ 9223372036854775807)
    (hps : ps ≤ 4294967295) :
    serializeAccountTransactionHeader header (ps : ℚ) energy =
      .ok (header.sender ++ beBytes 8 header.nonce.toNat ++ beBytes 8 energy.toNat ++
           beBytes 4 ps ++ beBytes 8 header.expiry.toNat) := by
  simp only [serializeAccountTransactionHeader, encodeWord64_ok hn0 hn1,
    encodeWord64_ok he0 he1, encodeWord32_natCast_ok hps, encodeWord64_ok hx0 hx1]

/-- The common success shape of `serializeAccountTransaction`: once the
signature block and the header encode, the output is kind byte, signature
block, header, type byte, payload. -/
theorem serializeAccountTransaction_ok_form {P : Type} (cost : EnergyCostModel)
    (handler : TransactionHandler P) (tx : AccountTransaction P)
    (sigs : AccountTransactionSignature) (sigBytes hdr : Bytes)
    (hsig : serializeAccountTransactionSignature sigs = .ok sigBytes)
    (hhdr : serializeAccountTransactionHeader tx.header
        (((handler.serialize tx.payload).length + 1 : Nat) : ℚ)
        (cost (countSignatures sigs) ((handler.serialize tx.payload).length + 1)
          (handler.getBaseEnergyCost tx.payload)) = .ok hdr) :
    serializeAccountTransaction cost handler tx sigs =
      .ok ([1] ++ sigBytes ++ hdr ++ serializeAccountTransactionType tx.type ++
           handler.serialize tx.payload) := by
  have hk8 : encodeWord8OfNat accountTransactionKind = .ok [1] := by decide
  simp only [serializeAccountTransaction, hk8, hsig, hhdr]

/- ------------------------------------------------------------------ -/
/- C2: fixed-width encoder range checks.                               -/
/- ------------------------------------------------------------------ -/

/-- **C2** (code bug).  The 8/16/32-bit encoders check exactly the claimed
range, and the claimed examples hold; but `encodeWord64` guards with the
**signed** 64-bit maximum `9223372036854775807 = 2^63 - 1`, so it rejects
`2^63 = 9223372036854775808`, a value that does not exceed
`2^64 - 1 = 18446744073709551615`, contradicting the claim (and the
function's own documentation, which says unsigned 64-bit). -/
theorem encodeUint_examples_and_word64_signed_bound :
    encodeWord8 256 = .error (.rangeError 8) ∧
    encodeWord64 (-1) = .error (.rangeError 64) ∧
    encodeWord32 4294967295 = .ok [255, 255, 255, 255] ∧
    encodeWord64 9223372036854775807 = .ok [127, 255, 255, 255, 255, 255, 255, 255] ∧
    encodeWord64 9223372036854775808 = .error (.rangeError 64) ∧
    (9223372036854775808 : Int) ≤ 18446744073709551615 := by decide

/- ------------------------------------------------------------------ -/
/- C5: the signing digest hashes header ++ type ++ payload only.       -/
/- ------------------------------------------------------------------ -/

/-- **C5**.  `getAccountTransactionSignDigest` hashes exactly
`header ++ typeByte ++ payload`: no block-item-kind byte and no signature
block enter the digest, and no signature set occurs in the computation at
all, so the digest is independent of any signature set. -/
theorem signDigest_hashes_exactly_header_type_payload {P : Type} (hash : Bytes → Bytes)
    (cost : EnergyCostModel) (handler : TransactionHandler P)
    (tx : AccountTransaction P) (signatureCount : Nat) :
    getAccountTransactionSignDigest hash cost handler tx signatureCount =
      (serializeAccountTransactionHeader tx.header
          (((handler.serialize tx.payload).length + 1 : Nat) : ℚ)
          (cost signatureCount ((handler.serialize tx.payload).length + 1)
            (handler.getBaseEnergyCost tx.payload))).map
        fun hdr =>
          hash (hdr ++ serializeAccountTransactionType tx.type ++
                handler.serialize tx.payload) := by
  simp only [getAccountTransactionSignDigest]
  generalize serializeAccountTransactionHeader tx.header
      (((handler.serialize tx.payload).length + 1 : Nat) : ℚ)
      (cost signatureCount ((handler.serialize tx.payload).length + 1)
        (handler.getBaseEnergyCost tx.payload)) = r
  cases r <;> rfl

/- ------------------------------------------------------------------ -/
/- C7: the submission envelope is a zero byte plus the serialization.  -/
/- ------------------------------------------------------------------ -/

/-- **C7**.  On every input where `serializeAccountTransaction` succeeds, the
submission serialization is the byte `0` followed byte-for-byte by the
transaction serialization. -/
theorem forSubmission_is_zero_byte_then_assemble {P : Type} (cost : EnergyCostModel)
    (handler : TransactionHandler P) (tx : AccountTransaction P)
    (sigs : AccountTransactionSignature) (bs : Bytes)
    (h : serializeAccountTransaction cost handler tx sigs = .ok bs) :
    serializeAccountTransactionForSubmission cost handler tx sigs = .ok (0 :: bs) := by
  have h0 : encodeWord8OfNat 0 = .ok [0] := by decide
  simp only [serializeAccountTransactionForSubmission, h, h0]
  rfl

/-- Witness for C7 at the canonical example. -/
theorem forSubmission_is_zero_byte_then_assemble_witness :
    serializeAccountTransactionForSubmission cost0 handlerId tx6 sigs6 = .ok (0 :: assembled6) :=
  forSubmission_is_zero_byte_then_assemble cost0 handlerId tx6 sigs6 assembled6 (by decide)

/- ------------------------------------------------------------------ -/
/- C8: the transaction hash digests the full serialization.            -/
/- ------------------------------------------------------------------ -/

/-- **C8**.  On every input where `serializeAccountTransaction` succeeds, the
transaction hash is the lowercase hex rendering of the digest of exactly
those bytes (kind byte, signature block, header, type byte, payload), for
the injected digest function. -/
theorem transactionHash_is_hex_hash_of_assemble {P : Type} (hash : Bytes → Bytes)
    (cost : EnergyCostModel) (handler : TransactionHandler P)
    (tx : AccountTransaction P) (sigs : AccountTransactionSignature) (bs : Bytes)
    (h : serializeAccountTransaction cost handler tx sigs = .ok bs) :
    getAccountTransactionHash hash cost handler tx sigs = .ok (bytesToHex (hash bs)) := by
  simp only [getAccountTransactionHash, h]

/-- Witness for C8 at the canonical example: the assembled bytes have length
71, so the stand-in digest is 32 copies of byte 71 = 0x47. -/
theorem transactionHash_is_hex_hash_of_assemble_witness :
    getAccountTransactionHash hashLen32 cost0 handlerId tx6 sigs6 =
      .ok "4747474747474747474747474747474747474747474747474747474747474747" := by
  rw [transactionHash_is_hex_hash_of_assemble hashLen32 cost0 handlerId tx6 sigs6 assembled6
    (by decide)]
  decide

/- ------------------------------------------------------------------ -/
/- C9: errors propagate unchanged; no partial output.                  -/
/- ------------------------------------------------------------------ -/

/-- **C9**.  Whenever `serializeAccountTransaction` fails, both
`serializeAccountTransactionForSubmission` and `getAccountTransactionHash`
fail with the very same error and produce no bytes (an `Except.error` carries
no output, so a caller never receives partial bytes); and when the failure
input is the empty signature set, the propagated error is exactly the
empty-signature-set error raised at the point of malformed input. -/
theorem assemble_error_propagates {P : Type} (hash : Bytes → Bytes) (cost : EnergyCostModel)
    (handler : TransactionHandler P) (tx : AccountTransaction P)
    (sigs : AccountTransactionSignature) (e : EncError)
    (h : serializeAccountTransaction cost handler tx sigs = .error e) :
    serializeAccountTransactionForSubmission cost handler tx sigs = .error e ∧
    getAccountTransactionHash hash cost handler tx sigs = .error e ∧
    (objectKeys sigs = [] → e = .emptySignatureSet) := by
  refine ⟨?_, ?_, ?_⟩
  · simp only [serializeAccountTransactionForSubmission, h]
  · simp only [getAccountTransactionHash, h]
  · intro hk
    have hk8 : encodeWord8OfNat accountTransactionKind = .ok [1] := by decide
    have hsig : serializeAccountTransactionSignature sigs = .error .emptySignatureSet := by
      simp [serializeAccountTransactionSignature, hk]
    simp only [serializeAccountTransaction, hk8, hsig] at h
    injection h with h
    exact h.symm

/-- Witness for C9 at the empty signature set. -/
theorem assemble_error_propagates_witness :
    serializeAccountTransactionForSubmission cost0 handlerId tx6 [] =
      .error .emptySignatureSet ∧
    getAccountTransactionHash hashLen32 cost0 handlerId tx6 [] =
      .error .emptySignatureSet ∧
    (objectKeys ([] : AccountTransactionSignature) = [] →
      EncError.emptySignatureSet = .emptySignatureSet) :=
  assemble_error_propagates hashLen32 cost0 handlerId tx6 [] .emptySignatureSet (by decide)

/- ------------------------------------------------------------------ -/
/- C4: header layout and the derived payload-size field.               -/
/- ------------------------------------------------------------------ -/

/-- **C4**.  On every valid input, the header bytes inside
`serializeAccountTransaction` are sender ++ nonce (64-bit BE) ++ energy
(64-bit BE) ++ payload size (32-bit BE) ++ expiry (64-bit BE), and the
payload-size field is `plen + 1 = len(typeByte) + len(payload)`, computed
from the actually serialized payload (the header record has no such field). -/
theorem assemble_header_layout_and_derived_payload_size {P : Type} (cost : EnergyCostModel)
    (handler : TransactionHandler P) (tx : AccountTransaction P)
    (sigs : AccountTransactionSignature) (sigBytes : Bytes) (plen : Nat) (energy : Int)
    (hsig : serializeAccountTransactionSignature sigs = .ok sigBytes)
    (hplen : plen = (handler.serialize tx.payload).length)
    (henergy : energy = cost (countSignatures sigs) (plen + 1)
      (handler.getBaseEnergyCost tx.payload))
    (hn0 : 0 ≤ tx.header.nonce) (hn1 : tx.header.nonce ≤ 9223372036854775807)
    (he0 : 0 ≤ energy) (he1 : energy ≤ 9223372036854775807)
    (hx0 : 0 ≤ tx.header.expiry) (hx1 : tx.header.expiry ≤ 9223372036854775807)
    (hps : plen + 1 ≤ 4294967295) :
    serializeAccountTransaction cost handler tx sigs =
      .ok ([1] ++ sigBytes ++
        (tx.header.sender ++ beBytes 8 tx.header.nonce.toNat ++ beBytes 8 energy.toNat ++
         beBytes 4 (plen + 1) ++ beBytes 8 tx.header.expiry.toNat) ++
        serializeAccountTransactionType tx.type ++ handler.serialize tx.payload) ∧
    (serializeAccountTransactionType tx.type).length + (handler.serialize tx.payload).length =
      plen + 1 := by
  subst hplen henergy
  constructor
  · exact serializeAccountTransaction_ok_form cost handler tx sigs sigBytes _ hsig
      (serializeAccountTransactionHeader_ok hn0 hn1 he0 he1 hx0 hx1 hps)
  · simp [serializeAccountTransactionType, Nat.add_comm]

/-- Witness for C4 at the canonical example. -/
theorem assemble_header_layout_witness :
    serializeAccountTransaction cost0 handlerId tx6 sigs6 =
      .ok ([1] ++ [1, 0, 1, 0, 0, 1, 170] ++
        (tx6.header.sender ++ beBytes 8 tx6.header.nonce.toNat ++ beBytes 8 (7 : Int).toNat ++
         beBytes 4 (2 + 1) ++ beBytes 8 tx6.header.expiry.toNat) ++
        serializeAccountTransactionType tx6.type ++ handlerId.serialize tx6.payload) ∧
    (serializeAccountTransactionType tx6.type).length + (handlerId.serialize tx6.payload).length =
      2 + 1 :=
  assemble_header_layout_and_derived_payload_size cost0 handlerId tx6 sigs6
    [1, 0, 1, 0, 0, 1, 170] 2 7 (by decide) (by decide) (by decide) (by decide) (by decide)
    (by decide) (by decide) (by decide) (by decide) (by decide)

/- ------------------------------------------------------------------ -/
/- C6: the canonical end-to-end example.                               -/
/- ------------------------------------------------------------------ -/

/-- **C6 counterexample**.  On the spec's canonical input the signature block
is `01 00 01 00 00 01 aa` (credential index `00`, then key-index `00`, then
16-bit length `00 01`), so the first 8 assembled bytes are
`01 01 00 01 00 00 01 aa`, not the claimed `01 01 00 01 01 00 02 aa`. -/
theorem assemble_canonical_example_claimed_bytes_differ :
    (serializeAccountTransaction cost0 handlerId tx6 sigs6).map (List.take 8) =
      .ok [1, 1, 0, 1, 0, 0, 1, 170] ∧
    ([1, 1, 0, 1, 0, 0, 1, 170] : Bytes) ≠ [1, 1, 0, 1, 1, 0, 2, 170] := by decide

/-- **C6 (amended)**.  On the canonical input the assembled bytes are the kind
byte `01`, the signature block `01 00 01 00 00 01 aa` (1 credential, index 0,
1 key, index 0, length 1, byte `aa`), the header bytes (32 zero sender bytes,
nonce 1, the 64-bit energy field, payload size 3, expiry 100), the type byte
`03`, and the payload `0A 0B`. -/
theorem assemble_canonical_example (cost : EnergyCostModel)
    (he0 : 0 ≤ cost 1 3 1) (he1 : cost 1 3 1 ≤ 9223372036854775807) :
    serializeAccountTransaction cost handlerId tx6 sigs6 =
      .ok ([1] ++ [1, 0, 1, 0, 0, 1, 170] ++
        (List.replicate 32 0 ++ [0, 0, 0, 0, 0, 0, 0, 1] ++ beBytes 8 (cost 1 3 1).toNat ++
         [0, 0, 0, 3] ++ [0, 0, 0, 0, 0, 0, 0, 100]) ++ [3] ++ [10, 11]) := by
  have hhdr : serializeAccountTransactionHeader tx6.header
      (((handlerId.serialize tx6.payload).length + 1 : Nat) : ℚ)
      (cost (countSignatures sigs6) ((handlerId.serialize tx6.payload).length + 1)
        (handlerId.getBaseEnergyCost tx6.payload)) =
      .ok (tx6.header.sender ++ beBytes 8 tx6.header.nonce.toNat ++
           beBytes 8 (cost 1 3 1).toNat ++ beBytes 4 3 ++ beBytes 8 tx6.header.expiry.toNat) :=
    serializeAccountTransactionHeader_ok (by decide) (by decide) he0 he1 (by decide) (by decide)
      (by decide)
  rw [serializeAccountTransaction_ok_form cost handlerId tx6 sigs6 [1, 0, 1, 0, 0, 1, 170] _
    (by decide) hhdr]
  rfl

/-- Witness for C6 at the concrete cost model. -/
theorem assemble_canonical_example_witness :
    serializeAccountTransaction cost0 handlerId tx6 sigs6 =
      .ok ([1] ++ [1, 0, 1, 0, 0, 1, 170] ++
        (List.replicate 32 0 ++ [0, 0, 0, 0, 0, 0, 0, 1] ++ beBytes 8 (cost0 1 3 1).toNat ++
         [0, 0, 0, 3] ++ [0, 0, 0, 0, 0, 0, 0, 100]) ++ [3] ++ [10, 11]) :=
  assemble_canonical_example cost0 (by decide) (by decide)

/- ------------------------------------------------------------------ -/
/- C1: ordered map encoding is insertion-order independent.            -/
/- ------------------------------------------------------------------ -/

theorem objectKeys_sorted {T : Type} (m : JsMap T) : (objectKeys m).Sorted (· ≤ ·) :=
  List.sorted_insertionSort _ _

theorem objectKeys_perm_of_nodup {T : Type} {m : JsMap T}
    (h : (m.map Prod.fst).Nodup) : (objectKeys m).Perm (m.map Prod.fst) := by
  unfold objectKeys
  rw [List.dedup_eq_self.mpr h]
  exact List.perm_insertionSort _ _

theorem objectKeys_eq_of_perm {T : Type} {l₁ l₂ : JsMap T}
    (h₁ : (l₁.map Prod.fst).Nodup) (hp : l₁.Perm l₂) :
    objectKeys l₁ = objectKeys l₂ := by
  have h₂ : (l₂.map Prod.fst).Nodup := ((hp.map Prod.fst).nodup_iff).mp h₁
  refine List.eq_of_perm_of_sorted ?_ (objectKeys_sorted l₁) (objectKeys_sorted l₂)
  exact (objectKeys_perm_of_nodup h₁).trans
    ((hp.map Prod.fst).trans (objectKeys_perm_of_nodup h₂).symm)

theorem jsGet_eq_some_of_mem {T : Type} {l : JsMap T} {k : Nat} {v : T}
    (hnd : (l.map Prod.fst).Nodup) (hm : (k, v) ∈ l) : jsGet l k = some v := by
  induction l with
  | nil => cases hm
  | cons p ps ih =>
    rw [List.map_cons, List.nodup_cons] at hnd
    rcases List.mem_cons.mp hm with h | h
    · subst h
      simp [jsGet]
    · have hk : ¬p.1 = k := by
        intro he
        exact hnd.1 (he ▸ List.mem_map.mpr ⟨(k, v), h, rfl⟩)
      unfold jsGet
      rw [List.find?_cons_of_neg _ (by simpa using hk)]
      exact ih hnd.2 h

theorem mem_of_jsGet_eq_some {T : Type} {l : JsMap T} {k : Nat} {v : T}
    (h : jsGet l k = some v) : (k, v) ∈ l := by
  unfold jsGet at h
  cases hf : l.find? (fun p => p.1 == k) with
  | none => rw [hf] at h; cases h
  | some p =>
    rw [hf] at h
    have hm := List.mem_of_find?_eq_some hf
    have hpred := List.find?_some hf
    obtain ⟨p1, p2⟩ := p
    simp at h hpred
    exact h ▸ hpred ▸ hm

theorem not_mem_keys_of_jsGet_eq_none {T : Type} {l : JsMap T} {k : Nat}
    (h : jsGet l k = none) : k ∉ l.map Prod.fst := by
  intro hk
  obtain ⟨p, hp, hpe⟩ := List.mem_map.mp hk
  unfold jsGet at h
  cases hf : l.find? (fun q => q.1 == k) with
  | some q => rw [hf] at h; simp at h
  | none =>
    have := List.find?_eq_none.mp hf p hp
    exact this (by simp [hpe])

theorem jsGet_eq_none_of_not_mem_keys {T : Type} {l : JsMap T} {k : Nat}
    (h : k ∉ l.map Prod.fst) : jsGet l k = none := by
  unfold jsGet
  rw [List.find?_eq_none.mpr]
  · rfl
  · intro p hp
    simp only [beq_iff_eq]
    intro he
    exact h (List.mem_map.mpr ⟨p, hp, he⟩)

theorem jsGet_eq_of_perm {T : Type} {l₁ l₂ : JsMap T}
    (hnd : (l₁.map Prod.fst).Nodup) (hp : l₁.Perm l₂) (k : Nat) :
    jsGet l₁ k = jsGet l₂ k := by
  have hnd₂ : (l₂.map Prod.fst).Nodup := ((hp.map Prod.fst).nodup_iff).mp hnd
  cases h : jsGet l₁ k with
  | some v =>
    exact (jsGet_eq_some_of_mem hnd₂ (hp.mem_iff.mp (mem_of_jsGet_eq_some h))).symm
  | none =>
    have hk := not_mem_keys_of_jsGet_eq_none h
    have hk₂ : k ∉ l₂.map Prod.fst := fun hm => hk ((hp.map Prod.fst).mem_iff.mpr hm)
    exact (jsGet_eq_none_of_not_mem_keys hk₂).symm

theorem serializeMapEntries_congr {T : Type} {l₁ l₂ : JsMap T}
    (ek : Nat → Except EncError Bytes) (ev : T → Except EncError Bytes)
    (h : ∀ k, jsGet l₁ k = jsGet l₂ k) :
    ∀ ks, serializeMapEntries l₁ ek ev ks = serializeMapEntries l₂ ek ev ks
  | [] => rfl
  | k :: ks => by
    simp only [serializeMapEntries]
    rw [h k, serializeMapEntries_congr ek ev h ks]

/-- **C1**.  The ordered map encoding: the same map given in any insertion
order encodes identically; the key sequence actually used is sorted ascending
and is a permutation of the map's keys; and on success the output is the
encoded entry count followed by the concatenated key/value encodings in that
ascending key order. -/
theorem serializeMap_ascending_insertion_order_independent {T : Type}
    (l₁ l₂ : JsMap T) (es ek : Nat → Except EncError Bytes)
    (ev : T → Except EncError Bytes)
    (hnd : (l₁.map Prod.fst).Nodup) (hp : l₁.Perm l₂) :
    serializeMap l₁ es ek ev = serializeMap l₂ es ek ev ∧
    (objectKeys l₁).Sorted (· ≤ ·) ∧
    (objectKeys l₁).Perm (l₁.map Prod.fst) ∧
    (∀ sz entries, es (objectKeys l₁).length = .ok sz →
      serializeMapEntries l₁ ek ev (objectKeys l₁) = .ok entries →
      serializeMap l₁ es ek ev = .ok (sz ++ entries)) := by
  refine ⟨?_, objectKeys_sorted l₁, objectKeys_perm_of_nodup hnd, ?_⟩
  · unfold serializeMap
    rw [objectKeys_eq_of_perm hnd hp,
      serializeMapEntries_congr ek ev (jsGet_eq_of_perm hnd hp) (objectKeys l₂)]
  · intro sz entries h1 h2
    simp only [serializeMap, h1, h2]

/-- Witness for C1: the `SignatureSet` with credential keys `{2,0,1}` inserted
in that order encodes identically to ascending insertion, and its bytes place
credential 0 first, then 1, then 2. -/
theorem serializeMap_ascending_insertion_order_independent_witness :
    serializeMap [(2, [(0, "aa")]), (0, [(0, "bb")]), (1, [(0, "cc")])] encodeWord8OfNat
        encodeWord8FromString putCredentialSignatures =
      serializeMap [(0, [(0, "bb")]), (1, [(0, "cc")]), (2, [(0, "aa")])] encodeWord8OfNat
        encodeWord8FromString putCredentialSignatures ∧
    serializeAccountTransactionSignature [(2, [(0, "aa")]), (0, [(0, "bb")]), (1, [(0, "cc")])] =
      .ok [3, 0, 1, 0, 0, 1, 187, 1, 1, 0, 0, 1, 204, 2, 1, 0, 0, 1, 170] :=
  ⟨(serializeMap_ascending_insertion_order_independent
      [(2, [(0, "aa")]), (0, [(0, "bb")]), (1, [(0, "cc")])]
      [(0, [(0, "bb")]), (1, [(0, "cc")]), (2, [(0, "aa")])]
      encodeWord8OfNat encodeWord8FromString putCredentialSignatures
      (by decide) (by decide)).1,
   by decide⟩

/- ------------------------------------------------------------------ -/
/- C3: the empty-signature-set guard.                                  -/
/- ------------------------------------------------------------------ -/

theorem encodeWord8_error_ne_emptySig (q : ℚ) :
    encodeWord8 q ≠ .error .emptySignatureSet := by
  unfold encodeWord8
  split <;> simp

theorem encodeWord8OfNat_error_ne_emptySig (n : Nat) :
    encodeWord8OfNat n ≠ .error .emptySignatureSet :=
  encodeWord8_error_ne_emptySig _

theorem encodeWord8FromString_error_ne_emptySig (n : Nat) :
    encodeWord8FromString n ≠ .error .emptySignatureSet :=
  encodeWord8_error_ne_emptySig _

theorem putSignature_error_ne_emptySig (s : String) :
    putSignature s ≠ .error .emptySignatureSet := by
  simp only [putSignature]
  split <;> simp

theorem serializeMapEntries_error_ne_emptySig {T : Type} (l : JsMap T)
    (ek : Nat → Except EncError Bytes) (ev : T → Except EncError Bytes)
    (hek : ∀ k, ek k ≠ .error .emptySignatureSet)
    (hev : ∀ v, ev v ≠ .error .emptySignatureSet) :
    ∀ ks, serializeMapEntries l ek ev ks ≠ .error .emptySignatureSet
  | [] => by simp [serializeMapEntries]
  | k :: ks => by
    simp only [serializeMapEntries]
    cases hk : ek k with
    | error e =>
      have := hek k
      rw [hk] at this
      simpa using this
    | ok kb =>
      cases hv : (match jsGet l k with | some v => ev v | none => .ok []) with
      | error e =>
        have : (match jsGet l k with | some v => ev v | none => .ok ([] : Bytes)) ≠
            .error .emptySignatureSet := by
          cases jsGet l k with
          | some v => exact hev v
          | none => simp
        rw [hv] at this
        simpa using this
      | ok vb =>
        cases hr : serializeMapEntries l ek ev ks with
        | error e =>
          have := serializeMapEntries_error_ne_emptySig l ek ev hek hev ks
          rw [hr] at this
          simpa using this
        | ok rest => simp

theorem serializeMap_error_ne_emptySig {T : Type} (l : JsMap T)
    (es ek : Nat → Except EncError Bytes) (ev : T → Except EncError Bytes)
    (hes : ∀ n, es n ≠ .error .emptySignatureSet)
    (hek : ∀ k, ek k ≠ .error .emptySignatureSet)
    (hev : ∀ v, ev v ≠ .error .emptySignatureSet) :
    serializeMap l es ek ev ≠ .error .emptySignatureSet := by
  unfold serializeMap
  cases hs : es (objectKeys l).length with
  | error e =>
    have := hes (objectKeys l).length
    rw [hs] at this
    simpa using this
  | ok sz =>
    cases hr : serializeMapEntries l ek ev (objectKeys l) with
    | error e =>
      have := serializeMapEntries_error_ne_emptySig l ek ev hek hev (objectKeys l)
      rw [hr] at this
      simpa using this
    | ok rest => simp

theorem putCredentialSignatures_error_ne_emptySig (credSig : CredentialSignature) :
    putCredentialSignatures credSig ≠ .error .emptySignatureSet :=
  serializeMap_error_ne_emptySig credSig _ _ _ encodeWord8OfNat_error_ne_emptySig
    encodeWord8FromString_error_ne_emptySig putSignature_error_ne_emptySig

/-- **C3 counterexample**.  A signature set with one credential entry mapping
to zero key entries does **not** fail: it encodes to `01 00 00` (one
credential, key 0, inner count 0). -/
theorem serializeSignature_zero_key_credential_succeeds :
    serializeAccountTransactionSignature [(0, ([] : CredentialSignature))] =
      .ok [1, 0, 0] := by decide

/-- **C3 (amended)**.  `serializeAccountTransactionSignature` fails with the
empty-signature-set error exactly when the set has zero credential entries;
a credential entry with zero key entries does not trigger the guard. -/
theorem serializeSignature_emptyError_iff_no_credentials
    (signatures : AccountTransactionSignature) :
    serializeAccountTransactionSignature signatures = .error .emptySignatureSet ↔
      objectKeys signatures = [] := by
  unfold serializeAccountTransactionSignature
  by_cases h : (objectKeys signatures).length = 0
  · rw [if_pos h]
    simp [List.length_eq_zero.mp h]
  · rw [if_neg h]
    constructor
    · intro hc
      exact absurd hc (serializeMap_error_ne_emptySig signatures _ _ _
        encodeWord8OfNat_error_ne_emptySig encodeWord8FromString_error_ne_emptySig
        putCredentialSignatures_error_ne_emptySig)
    · intro hk
      exact absurd (congrArg List.length hk) (by simpa using h)

/-- Witness for C3 at the empty set. -/
theorem serializeSignature_emptyError_iff_witness :
    serializeAccountTransactionSignature [] = .error .emptySignatureSet :=
  (serializeSignature_emptyError_iff_no_credentials []).mpr (by decide)

/- ------------------------------------------------------------------ -/
/- C10: hex decoding of signature strings.                             -/
/- ------------------------------------------------------------------ -/

theorem parseIntHex2_of_hex {c1 c2 : Char} {v1 v2 : Nat}
    (h1 : hexVal c1 = some v1) (h2 : hexVal c2 = some v2) :
    parseIntHex2 c1 c2 = some ((16 * v1 + v2 : Nat) : Int) := by
  have hxn : hexVal 'x' = none := by decide
  have hXn : hexVal 'X' = none := by decide
  have hneg : ¬(c1 = '0' ∧ (c2 = 'x' ∨ c2 = 'X')) := by
    rintro ⟨h0, hx | hx⟩
    · subst hx; rw [hxn] at h2; cases h2
    · subst hx; rw [hXn] at h2; cases h2
  unfold parseIntHex2
  rw [if_neg hneg, h1, h2]

theorem hexPairsDecode_allHex_length : ∀ cs : List Char,
    (∀ c ∈ cs, (hexVal c).isSome) → (hexPairsDecode cs).length = cs.length / 2
  | [], _ => by simp [hexPairsDecode]
  | [c], _ => by simp [hexPairsDecode]
  | c1 :: c2 :: rest, h => by
    obtain ⟨v1, h1⟩ := Option.isSome_iff_exists.mp (h c1 (by simp))
    obtain ⟨v2, h2⟩ := Option.isSome_iff_exists.mp (h c2 (by simp))
    have ih := hexPairsDecode_allHex_length rest (fun c hc => h c (by simp [hc]))
    simp only [hexPairsDecode, parseIntHex2_of_hex h1 h2]
    simp only [List.length_cons, ih]
    omega

/-- **C10 (amended)**.  `putSignature` consumes the signature as a string fed
to the npm `buffer` hex decoder and emits a 16-bit big-endian length prefix
that always equals the decoded byte count, followed by those bytes; for a
string of hex digits the decoded count is exactly half the character count
(rounded down). -/
theorem putSignature_length_matches_decoded (s : String)
    (h : (jsBufferFromHex s).length ≤ 65535) :
    putSignature s = .ok (beBytes 2 (jsBufferFromHex s).length ++ jsBufferFromHex s) ∧
    ((∀ c ∈ s.data, (hexVal c).isSome) → (jsBufferFromHex s).length = s.length / 2) := by
  constructor
  · simp only [putSignature]
    rw [if_neg (by omega)]
  · intro hs
    exact hexPairsDecode_allHex_length s.data hs

/-- Witness for C10 on the valid hex signature `"aa"`. -/
theorem putSignature_length_matches_decoded_witness :
    putSignature "aa" = .ok (beBytes 2 (jsBufferFromHex "aa").length ++ jsBufferFromHex "aa") ∧
    (jsBufferFromHex "aa").length = "aa".length / 2 :=
  ⟨(putSignature_length_matches_decoded "aa" (by decide)).1,
   (putSignature_length_matches_decoded "aa" (by decide)).2 (by decide)⟩

/-- **C10 counterexample**.  `"az"` contains the non-hex character `z`, yet
decoding does not stop: `parseInt("az", 16) = 10`, so the signature encodes
as one byte `0x0a` with length prefix `1 = ⌊len/2⌋` — not truncated below the
valid-hex byte count and not a smaller prefix. -/
theorem putSignature_invalid_char_no_truncation :
    putSignature "az" = .ok [0, 1, 10] ∧ hexVal 'z' = none ∧
    ¬(jsBufferFromHex "az").length < "az".length / 2 := by decide

end ConcordiumSdk
